import Mathlib

/-!
Shallow embedding of `.github/scripts/collect_activity_single_repo.py`.

The script queries the GitHub REST API for pull-request and commit activity
in the last 24 hours and prints a JSON summary.  We model:

* timestamps as integers (microseconds; ISO-8601 strings of the API are
  identified with their parsed value, except for the `since` output field,
  whose actual string rendering by `datetime.isoformat` is modelled in full);
* each HTTP response as a status code plus an already-decoded JSON body;
* the sequence of listing pages served by the API as a list of
  `Except HttpError (List _)` values: the loop requesting page 1, 2, ... of
  the external API receives these in order, and pages past the end of the
  list are empty (which is how the GitHub API behaves past the last page);
* the per-item detail fetch as a function from the item's key to
  `Except HttpError _` (`.error` = the `requests.RequestException` that the
  script catches).
-/

/-- Error raised by `response.raise_for_status()`: carries the HTTP status. -/
structure HttpError where
  status : Nat
deriving DecidableEq, Repr

/-- A decoded HTTP response: status code plus JSON body. -/
structure HttpResponse (α : Type) where
  status : Nat
  body : α
deriving DecidableEq, Repr

/-- `github_get`: performs the request and calls `response.raise_for_status()`,
which raises exactly when `400 <= status_code < 600`; otherwise the decoded
JSON body is returned. -/
def github_get {α : Type} (r : HttpResponse α) : Except HttpError α :=
  if 400 ≤ r.status ∧ r.status < 600 then .error ⟨r.status⟩ else .ok r.body

/-- `per_page = 50` in both pagination loops. -/
def per_page : Nat := 50

/-! ## Pull requests -/

/-- The `user` object of a PR listing item (`pr.get("user") or {}`). -/
structure PRUser where
  login : Option String
  html_url : Option String
deriving DecidableEq, Repr

/-- One item of the paginated PR listing (`GET /repos/o/r/pulls`).
`updated_at` is the parsed `updated_at` timestamp. -/
structure PRItem where
  number : Nat
  title : String
  user : Option PRUser
  state : String
  merged_at : Option String
  updated_at : Int
  html_url : Option String
deriving DecidableEq, Repr

/-- The `base`/`head` sub-object of the PR detail response. -/
structure PRRef where
  ref : Option String
deriving DecidableEq, Repr

/-- The PR detail response (`GET /repos/o/r/pulls/{number}`); every field the
script reads with `.get`, hence every field optional. -/
structure PRDetails where
  additions : Option Int
  deletions : Option Int
  changed_files : Option Int
  commits : Option Int
  mergeable_state : Option String
  merged_at : Option String
  base : Option PRRef
  head : Option PRRef
deriving DecidableEq, Repr

/-- `pr_details = {}`: the empty dict used when the detail fetch fails. -/
def emptyPRDetails : PRDetails :=
  { additions := none, deletions := none, changed_files := none,
    commits := none, mergeable_state := none, merged_at := none,
    base := none, head := none }

/-- One element of the output `prs` array. -/
structure PROut where
  number : Nat
  title : String
  user_login : Option String
  user_html_url : Option String
  state : String
  merged : Bool
  updated_at : Int
  html_url : Option String
  additions : Option Int
  deletions : Option Int
  changed_files : Option Int
  commits : Option Int
  mergeable_state : Option String
  merged_at : Option String
  base_ref : Option String
  head_ref : Option String
deriving DecidableEq, Repr

/-- The dict appended to `prs` for one kept listing item `pr`, given the
outcome of the detail fetch (`.error` = caught `requests.RequestException`,
after which `pr_details = {}`). -/
def mkPREntry (pr : PRItem) (dres : Except HttpError PRDetails) : PROut :=
  let d := match dres with
    | .ok d => d
    | .error _ => emptyPRDetails
  let u := pr.user.getD ⟨none, none⟩
  { number := pr.number
    title := pr.title
    user_login := u.login
    user_html_url := u.html_url
    state := pr.state
    merged := pr.merged_at.isSome
    updated_at := pr.updated_at
    html_url := pr.html_url
    additions := d.additions
    deletions := d.deletions
    changed_files := d.changed_files
    commits := d.commits
    mergeable_state := d.mergeable_state
    merged_at := d.merged_at
    base_ref := (d.base.getD ⟨none⟩).ref
    head_ref := (d.head.getD ⟨none⟩).ref }

/-- The `for pr in page_prs:` body of `get_prs_since`.  Returns the entries
appended while scanning this page, and whether the `else: return prs` early
exit fired (which aborts the whole pagination). -/
def processPRPage (since : Int) (detail : Nat → Except HttpError PRDetails) :
    List PRItem → List PROut × Bool
  | [] => ([], false)
  | pr :: rest =>
    if pr.updated_at ≥ since then
      let e := mkPREntry pr (detail pr.number)
      let r := processPRPage since detail rest
      (e :: r.1, r.2)
    else
      ([], true)

/-- `get_prs_since`: pages through the PR listing (sorted by update time
descending).  `pages` holds what page 1, 2, ... of the listing return; pages
past the end of the list are empty, so the recursion returning `.ok []` on
`[]` is the `if not page_prs: break` on the first out-of-range page. -/
def get_prs_since (since : Int) (detail : Nat → Except HttpError PRDetails) :
    List (Except HttpError (List PRItem)) → Except HttpError (List PROut)
  | [] => .ok []
  | .error e :: _ => .error e
  | .ok page :: rest =>
    if page.isEmpty then .ok []
    else
      let r := processPRPage since detail page
      if r.2 then .ok r.1
      else if page.length < per_page then .ok r.1
      else (get_prs_since since detail rest).map (fun tail => r.1 ++ tail)

/-! ## Commits -/

/-- The `commit.author` / `commit.committer` sub-object. -/
structure CommitPerson where
  name : Option String
  email : Option String
  date : Option Int
deriving DecidableEq, Repr

/-- The nested `commit` object of a listing item. -/
structure CommitInner where
  author : Option CommitPerson
  committer : Option CommitPerson
  message : String
deriving DecidableEq, Repr

/-- The top-level `author` object of a commit listing item. -/
structure CommitTopAuthor where
  login : Option String
deriving DecidableEq, Repr

/-- One item of the paginated commit listing (`GET /repos/o/r/commits`). -/
structure CommitItem where
  sha : String
  commit : CommitInner
  html_url : Option String
  author : Option CommitTopAuthor
  url : String
deriving DecidableEq, Repr

/-- The `stats` object of the commit detail response. -/
structure CommitStats where
  additions : Option Int
  deletions : Option Int
  total : Option Int
deriving DecidableEq, Repr

/-- The commit detail response (`github_get(commit["url"])`). -/
structure CommitDetails where
  stats : Option CommitStats
  files : Option (List Unit)
deriving DecidableEq, Repr

/-- One element of the output `commits` array. -/
structure CommitOut where
  sha : String
  short_sha : String
  message : String
  html_url : Option String
  author_login : Option String
  author_name : Option String
  author_email : Option String
  date : Int
  additions : Option Int
  deletions : Option Int
  total_changes : Option Int
  files_changed : Option Nat
deriving DecidableEq, Repr

/-- The dict appended to `commits` for one kept item `c` whose resolved
timestamp is `dt`, given the outcome of the per-commit stats fetch.
On failure `commit_details = {}`, so `stats = {}` and `files = []`
(note `{}.get("files") or []` yields the empty *list*, so
`files_changed = len([]) = 0`, not `None`). -/
def mkCommitEntry (c : CommitItem) (dt : Int)
    (dres : Except HttpError CommitDetails) : CommitOut :=
  let cd := match dres with
    | .ok d => d
    | .error _ => { stats := none, files := none }
  let stats := cd.stats.getD ⟨none, none, none⟩
  let files := cd.files.getD []
  let ainfo := c.commit.author.getD ⟨none, none, none⟩
  { sha := c.sha
    short_sha := c.sha.take 7
    message := (c.commit.message.splitOn "\n").headD ""
    html_url := c.html_url
    author_login := (c.author.getD ⟨none⟩).login
    author_name := ainfo.name
    author_email := ainfo.email
    date := dt
    additions := stats.additions
    deletions := stats.deletions
    total_changes := stats.total
    files_changed := some files.length }

/-- The timestamp the script derives for a commit item: the author date,
falling back to the committer date, `none` when neither is present. -/
def resolveCommitDate (c : CommitItem) : Option Int :=
  match (c.commit.author.getD ⟨none, none, none⟩).date with
  | some x => some x
  | none => (c.commit.committer.getD ⟨none, none, none⟩).date

/-- The `for commit in page_commits:` body of `get_commits_since`: items with
no resolvable date are skipped (`continue`), items at or after the cutoff are
appended, and — unlike the PR loop — a below-cutoff item never stops the
scan. -/
def processCommitPage (since : Int)
    (detail : String → Except HttpError CommitDetails) :
    List CommitItem → List CommitOut
  | [] => []
  | c :: rest =>
    match resolveCommitDate c with
    | none => processCommitPage since detail rest
    | some dt =>
      if dt ≥ since then
        mkCommitEntry c dt (detail c.url) :: processCommitPage since detail rest
      else
        processCommitPage since detail rest

/-- `get_commits_since`: pages through the branch's commit listing (the API
also receives a server-side `since` filter; the pages are whatever it
returns, and the script re-checks the cutoff client-side). -/
def get_commits_since (since : Int)
    (detail : String → Except HttpError CommitDetails) :
    List (Except HttpError (List CommitItem)) → Except HttpError (List CommitOut)
  | [] => .ok []
  | .error e :: _ => .error e
  | .ok page :: rest =>
    if page.isEmpty then .ok []
    else
      let kept := processCommitPage since detail page
      if page.length < per_page then .ok kept
      else (get_commits_since since detail rest).map (fun tail => kept ++ tail)

/-! ## Datetimes: `datetime.isoformat` / `datetime.fromisoformat`

A tz-aware UTC `datetime` is modelled as its count of microseconds since
0001-01-01T00:00:00 UTC (proleptic Gregorian, as Python's `datetime` uses;
`datetime.min` is year 1 and `datetime.max` year 9999).  Calendar
conversion follows CPython's `datetime` module: `_ord2ymd` / `_ymd2ord`,
with ordinals shifted by one so that day 0 is 0001-01-01. -/

/-- CPython `datetime._is_leap`. -/
def isLeapYear (y : Nat) : Bool :=
  decide (y % 4 = 0 ∧ (y % 100 ≠ 0 ∨ y % 400 = 0))

/-- CPython `datetime._DAYS_BEFORE_MONTH` (cumulative days before month `m`
in a non-leap year). -/
def daysBeforeMonth : Nat → Nat
  | 1 => 0
  | 2 => 31
  | 3 => 59
  | 4 => 90
  | 5 => 120
  | 6 => 151
  | 7 => 181
  | 8 => 212
  | 9 => 243
  | 10 => 273
  | 11 => 304
  | 12 => 334
  | _ => 0

/-- CPython `datetime._DAYS_IN_MONTH` (non-leap year). -/
def daysInMonth : Nat → Nat
  | 1 => 31
  | 2 => 28
  | 3 => 31
  | 4 => 30
  | 5 => 31
  | 6 => 30
  | 7 => 31
  | 8 => 31
  | 9 => 30
  | 10 => 31
  | 11 => 30
  | 12 => 31
  | _ => 0

/-- The month/day part of CPython `datetime._ord2ymd`: `leap` is the
`leapyear` boolean it computes, `r1` the remaining day-of-year index. -/
def monthDayOf (leap : Bool) (r1 : Nat) : Nat × Nat :=
  let month := (r1 + 50) / 32
  let preceding := daysBeforeMonth month + (if 2 < month ∧ leap then 1 else 0)
  if r1 < preceding then
    let month2 := month - 1
    let preceding2 :=
      preceding - (daysInMonth month2 + (if month2 = 2 ∧ leap then 1 else 0))
    (month2, r1 - preceding2 + 1)
  else
    (month, r1 - preceding + 1)

/-- CPython `datetime._ord2ymd`, on days since 0001-01-01 (ordinal - 1):
civil date (year, month, day) of day `n`. -/
def ord2ymd (n : Nat) : Nat × Nat × Nat :=
  let n400 := n / 146097
  let r400 := n % 146097
  let n100 := r400 / 36524
  let r100 := r400 % 36524
  let n4 := r100 / 1461
  let r4 := r100 % 1461
  let n1 := r4 / 365
  let r1 := r4 % 365
  let year := n400 * 400 + n100 * 100 + n4 * 4 + n1 + 1
  if n1 = 4 ∨ n100 = 4 then
    (year - 1, 12, 31)
  else
    let leap := decide (n1 = 3 ∧ (n4 ≠ 24 ∨ n100 = 3))
    (year, monthDayOf leap r1)

/-- CPython `datetime._ymd2ord - 1`: days since 0001-01-01 of the civil date
`(y, m, d)` (`_days_before_year + _days_before_month + day`, zero-based). -/
def ymd2ord (y m d : Nat) : Nat :=
  let py := y - 1
  py * 365 + py / 4 - py / 100 + py / 400 + daysBeforeMonth m +
    (if 2 < m ∧ isLeapYear y then 1 else 0) + (d - 1)

def microsPerDay : Nat := 86400000000

/-- Microseconds between `datetime.min` (year 1) and year 10000: the
exclusive upper bound of representable `datetime` values. -/
def maxMicros : Nat := 3652059 * microsPerDay

def digitChar (d : Nat) : Char := Char.ofNat (48 + d)

def pad2 (n : Nat) : String :=
  ⟨[digitChar (n / 10), digitChar (n % 10)]⟩

def pad4 (n : Nat) : String :=
  ⟨[digitChar (n / 1000), digitChar (n / 100 % 10), digitChar (n / 10 % 10),
    digitChar (n % 10)]⟩

def pad6 (n : Nat) : String :=
  ⟨[digitChar (n / 100000), digitChar (n / 10000 % 10), digitChar (n / 1000 % 10),
    digitChar (n / 100 % 10), digitChar (n / 10 % 10), digitChar (n % 10)]⟩

/-- `datetime.isoformat()` of the UTC datetime that is `t` microseconds after
0001-01-01: `YYYY-MM-DDTHH:MM:SS[.ffffff]+00:00`, the fractional part
omitted when the microsecond field is zero. -/
def isoOfMicros (t : Nat) : String :=
  let day := t / microsPerDay
  let rem := t % microsPerDay
  let c := ord2ymd day
  let hh := rem / 3600000000
  let mi := rem % 3600000000 / 60000000
  let ss := rem % 60000000 / 1000000
  let us := rem % 1000000
  pad4 c.1 ++ "-" ++ pad2 c.2.1 ++ "-" ++ pad2 c.2.2 ++ "T" ++ pad2 hh ++ ":" ++
    pad2 mi ++ ":" ++ pad2 ss ++ (if us = 0 then "" else "." ++ pad6 us) ++ "+00:00"

/-- `since.isoformat()` where the datetime is modelled as an integer
microsecond count (meaningful on `0 ≤ t`, the range `datetime` covers). -/
def isoformatUTC (t : Int) : String := isoOfMicros t.toNat

def digitVal (c : Char) : Nat := c.toNat - 48

def read2 (a b : Char) : Nat := digitVal a * 10 + digitVal b

/-- Microsecond count of the civil datetime with the given fields. -/
def microsOfFields (y mo d hh mi ss us : Nat) : Nat :=
  ymd2ord y mo d * microsPerDay + hh * 3600000000 + mi * 60000000 +
    ss * 1000000 + us

/-- `datetime.fromisoformat` restricted to the `+00:00`-suffixed strings the
script emits, returning the microsecond count since 0001-01-01. -/
def parseIso (s : String) : Option Int :=
  match s.data with
  | [y1, y2, y3, y4, s1, a1, a2, s2, b1, b2, s3, h1, h2, s4, i1, i2, s5, c1, c2,
     p1, z1, z2, p2, z3, z4] =>
    if s1 = '-' ∧ s2 = '-' ∧ s3 = 'T' ∧ s4 = ':' ∧ s5 = ':' ∧ p1 = '+' ∧
        z1 = '0' ∧ z2 = '0' ∧ p2 = ':' ∧ z3 = '0' ∧ z4 = '0' ∧
        y1.isDigit ∧ y2.isDigit ∧ y3.isDigit ∧ y4.isDigit ∧ a1.isDigit ∧
        a2.isDigit ∧ b1.isDigit ∧ b2.isDigit ∧ h1.isDigit ∧ h2.isDigit ∧
        i1.isDigit ∧ i2.isDigit ∧ c1.isDigit ∧ c2.isDigit then
      some (microsOfFields (read2 y1 y2 * 100 + read2 y3 y4) (read2 a1 a2)
        (read2 b1 b2) (read2 h1 h2) (read2 i1 i2) (read2 c1 c2) 0 : Nat)
    else none
  | [y1, y2, y3, y4, s1, a1, a2, s2, b1, b2, s3, h1, h2, s4, i1, i2, s5, c1, c2,
     dot, u1, u2, u3, u4, u5, u6, p1, z1, z2, p2, z3, z4] =>
    if s1 = '-' ∧ s2 = '-' ∧ s3 = 'T' ∧ s4 = ':' ∧ s5 = ':' ∧ dot = '.' ∧
        p1 = '+' ∧ z1 = '0' ∧ z2 = '0' ∧ p2 = ':' ∧ z3 = '0' ∧ z4 = '0' ∧
        y1.isDigit ∧ y2.isDigit ∧ y3.isDigit ∧ y4.isDigit ∧ a1.isDigit ∧
        a2.isDigit ∧ b1.isDigit ∧ b2.isDigit ∧ h1.isDigit ∧ h2.isDigit ∧
        i1.isDigit ∧ i2.isDigit ∧ c1.isDigit ∧ c2.isDigit ∧ u1.isDigit ∧
        u2.isDigit ∧ u3.isDigit ∧ u4.isDigit ∧ u5.isDigit ∧ u6.isDigit then
      some (microsOfFields (read2 y1 y2 * 100 + read2 y3 y4) (read2 a1 a2)
        (read2 b1 b2) (read2 h1 h2) (read2 i1 i2) (read2 c1 c2)
        (read2 u1 u2 * 10000 + read2 u3 u4 * 100 + read2 u5 u6) : Nat)
    else none
  | _ => none

/-! ## `main` -/

/-- Python truthiness of `os.environ.get(...)`: `None` and `""` are falsy. -/
def truthyStr : Option String → Bool
  | none => false
  | some s => !s.isEmpty

/-- `repository.split("/", 1)` followed by unpacking into two names:
`some (owner, repo)` splits at the first `/`; `none` is the uncaught
`ValueError` raised when the string contains no `/`. -/
def splitOnceAux : List Char → Option (List Char × List Char)
  | [] => none
  | c :: cs =>
    if c = '/' then some ([], cs)
    else (splitOnceAux cs).map (fun p => (c :: p.1, p.2))

def splitOnce (s : String) : Option (String × String) :=
  (splitOnceAux s.data).map (fun p => (⟨p.1⟩, ⟨p.2⟩))

/-- The JSON document `main` prints on success. -/
structure ActivityReport where
  repo : String
  since : String
  prs : List PROut
  commits : List CommitOut
deriving DecidableEq, Repr

/-- Outcome of a `main` run: normal success (JSON on stdout), a handled
fatal error (`sys.exit(1)` after a diagnostic on stderr), or an uncaught
exception (Python prints a traceback on stderr and exits 1). -/
inductive MainResult where
  | success (out : ActivityReport)
  | failure (diag : String)
  | exception (diag : String)
deriving DecidableEq, Repr

def exitCode : MainResult → Nat
  | .success _ => 0
  | .failure _ => 1
  | .exception _ => 1

def stdoutJson : MainResult → Option ActivityReport
  | .success out => some out
  | .failure _ => none
  | .exception _ => none

/-- Whether the run wrote a fatal diagnostic (or traceback) to stderr. -/
def stderrDiagnostic : MainResult → Bool
  | .success _ => false
  | .failure _ => true
  | .exception _ => true

/-- Everything the outside world supplies to one run of the script:
environment variables, the clock, and the API's responses. -/
structure Env where
  repository : Option String
  token : Option String
  /-- `datetime.now(timezone.utc)` in microseconds since 0001-01-01. -/
  now : Int
  /-- Outcome of `get_default_branch` (a single `github_get`). -/
  branchResult : Except HttpError String
  prPages : List (Except HttpError (List PRItem))
  prDetail : Nat → Except HttpError PRDetails
  commitPages : List (Except HttpError (List CommitItem))
  commitDetail : String → Except HttpError CommitDetails

def microsPerDayZ : Int := 86400000000

namespace Script

def main (env : Env) : MainResult :=
  if truthyStr env.repository = false then
    .failure "Error: GITHUB_REPOSITORY environment variable not set"
  else if truthyStr env.token = false then
    .failure "Error: GITHUB_TOKEN environment variable not set"
  else
    let repository := env.repository.getD ""
    match splitOnce repository with
    | none => .exception "ValueError: not enough values to unpack"
    | some _ownerRepo =>
      let since := env.now - microsPerDayZ
      match env.branchResult with
      | .error _ => .failure "Error getting default branch"
      | .ok _branch =>
        match get_prs_since since env.prDetail env.prPages with
        | .error _ => .failure "Error fetching PRs"
        | .ok prs =>
          match get_commits_since since env.commitDetail env.commitPages with
          | .error _ => .failure "Error fetching commits"
          | .ok commits =>
            .success { repo := repository, since := isoformatUTC since,
                       prs := prs, commits := commits }

end Script

/-- The cutoff test `updated_at >= since` as a Boolean predicate. -/
def prKeep (since : Int) (pr : PRItem) : Bool := decide (pr.updated_at ≥ since)

/-- The per-page entry built for a kept PR item. -/
def prEntryOf (detail : Nat → Except HttpError PRDetails) (pr : PRItem) : PROut :=
  mkPREntry pr (detail pr.number)


/-- What the spec says one listing item contributes: resolve the timestamp
(author date, else committer date), drop the item if there is none or it is
before the cutoff, otherwise emit its entry. -/
def keepCommit (since : Int) (detail : String → Except HttpError CommitDetails)
    (c : CommitItem) : Option CommitOut :=
  match resolveCommitDate c with
  | none => none
  | some dt => if dt ≥ since then some (mkCommitEntry c dt (detail c.url)) else none


/-! ## Fuelled form of the two `while True:` loops

For the termination claim the page source is an arbitrary function from page
number to page (the loop itself places no bound on how many pages exist), and
the loop is run on explicit fuel: `none` means the fuel ran out before the
loop returned. -/

/-- The `while True:` loop of `get_prs_since`, fetching page `page`,
accumulating into `acc`. -/
def prLoopF (since : Int) (detail : Nat → Except HttpError PRDetails)
    (fetch : Nat → List PRItem) :
    Nat → Nat → List PROut → Option (List PROut)
  | 0, _, _ => none
  | fuel + 1, page, acc =>
    let pg := fetch page
    if pg.isEmpty then some acc
    else
      let r := processPRPage since detail pg
      if r.2 then some (acc ++ r.1)
      else if pg.length < per_page then some (acc ++ r.1)
      else prLoopF since detail fetch fuel (page + 1) (acc ++ r.1)

/-- The `while True:` loop of `get_commits_since`. -/
def commitLoopF (since : Int) (detail : String → Except HttpError CommitDetails)
    (fetch : Nat → List CommitItem) :
    Nat → Nat → List CommitOut → Option (List CommitOut)
  | 0, _, _ => none
  | fuel + 1, page, acc =>
    let pg := fetch page
    if pg.isEmpty then some acc
    else
      let kept := processCommitPage since detail pg
      if pg.length < per_page then some (acc ++ kept)
      else commitLoopF since detail fetch fuel (page + 1) (acc ++ kept)


/-! ## Concrete inputs used by the witnesses -/

def prA : PRItem :=
  { number := 1, title := "Add feature", user := some ⟨some "alice", some "u"⟩,
    state := "closed", merged_at := some "2025-01-01T00:00:00Z", updated_at := 10,
    html_url := some "h" }

def prB : PRItem :=
  { number := 2, title := "Fix bug", user := none, state := "open",
    merged_at := none, updated_at := 5, html_url := none }

def prC : PRItem :=
  { number := 3, title := "Old", user := none, state := "open",
    merged_at := none, updated_at := 1, html_url := none }

def cA : CommitItem :=
  { sha := "abcdef1234",
    commit := ⟨some ⟨some "Alice", some "a@x", some 10⟩,
      some ⟨some "Bob", some "b@x", some 9⟩, "first\nsecond"⟩,
    html_url := some "h", author := some ⟨some "alice"⟩, url := "uA" }

def cB : CommitItem :=
  { sha := "bbbbbbbbbb",
    commit := ⟨none, none, "no dates"⟩,
    html_url := none, author := none, url := "uB" }

def cC : CommitItem :=
  { sha := "cccccccccc",
    commit := ⟨some ⟨none, none, none⟩, some ⟨none, none, some 7⟩, "fallback"⟩,
    html_url := none, author := none, url := "uC" }

def cD : CommitItem :=
  { sha := "dddddddddd",
    commit := ⟨some ⟨none, none, some 1⟩, none, "old"⟩,
    html_url := none, author := none, url := "uD" }

def failPRDetail : Nat → Except HttpError PRDetails := fun _ => .error ⟨500⟩

def failCommitDetail : String → Except HttpError CommitDetails := fun _ => .error ⟨500⟩

def envOK : Env :=
  { repository := some "octo/repo", token := some "tok", now := 63900000000000000,
    branchResult := .ok "main", prPages := [.ok []], prDetail := failPRDetail,
    commitPages := [.ok []], commitDetail := failCommitDetail }

/-! ## Lemmas about the PR loop -/

theorem processPRPage_eq (since : Int) (detail : Nat → Except HttpError PRDetails)
    (page : List PRItem) :
    processPRPage since detail page =
      ((page.takeWhile (prKeep since)).map (prEntryOf detail), !page.all (prKeep since)) := by
  induction page with
  | nil => simp [processPRPage]
  | cons pr rest ih =>
    by_cases h : pr.updated_at ≥ since
    · simp [processPRPage, h, ih, List.takeWhile_cons, prKeep, prEntryOf]
    · simp [processPRPage, h, List.takeWhile_cons, prKeep]

theorem takeWhile_eq_self_of_all {α : Type} {p : α → Bool} {xs : List α}
    (h : xs.all p = true) : xs.takeWhile p = xs := by
  induction xs with
  | nil => rfl
  | cons a l ih =>
    simp only [List.all_cons, Bool.and_eq_true] at h
    simp [List.takeWhile_cons, h.1, ih h.2]

theorem takeWhile_append_of_all {α : Type} {p : α → Bool} {xs ys : List α}
    (h : xs.all p = true) : (xs ++ ys).takeWhile p = xs ++ ys.takeWhile p := by
  induction xs with
  | nil => rfl
  | cons a l ih =>
    simp only [List.all_cons, Bool.and_eq_true] at h
    simp [List.takeWhile_cons, h.1, ih h.2]

theorem takeWhile_append_of_not_all {α : Type} {p : α → Bool} {xs ys : List α}
    (h : xs.all p = false) : (xs ++ ys).takeWhile p = xs.takeWhile p := by
  induction xs with
  | nil => simp at h
  | cons a l ih =>
    simp only [List.all_cons, Bool.and_eq_false_iff] at h
    rcases h with h | h
    · simp [List.takeWhile_cons, h]
    · by_cases ha : p a
      · simp [List.takeWhile_cons, ha, ih h]
      · simp [List.takeWhile_cons, ha]

/-- On a listing whose concatenation is strictly descending in `updated_at`,
scanning up to the first below-cutoff item is the same as filtering. -/
theorem takeWhile_eq_filter_of_sorted (since : Int) (l : List PRItem)
    (hsort : l.Pairwise (fun a b => b.updated_at < a.updated_at)) :
    l.takeWhile (prKeep since) = l.filter (prKeep since) := by
  induction l with
  | nil => rfl
  | cons a l ih =>
    rcases List.pairwise_cons.mp hsort with ⟨hlt, hrest⟩
    by_cases ha : prKeep since a
    · simp [List.takeWhile_cons, List.filter_cons, ha, ih hrest]
    · have hnone : l.filter (prKeep since) = [] := by
        apply List.filter_eq_nil_iff.mpr
        intro b hb
        have hba : b.updated_at < a.updated_at := hlt b hb
        simp only [prKeep, decide_eq_true_eq, ge_iff_le] at ha ⊢
        omega
      simp [List.takeWhile_cons, List.filter_cons, ha, hnone]

/-- The whole PR pagination, on a well-formed page sequence (every page but
the last is full), collects exactly the longest prefix of the concatenated
listing that is at or after the cutoff. -/
theorem get_prs_since_eq (since : Int) (detail : Nat → Except HttpError PRDetails)
    (pages : List (List PRItem))
    (hfull : ∀ p ∈ pages.dropLast, p.length = per_page) :
    get_prs_since since detail (pages.map .ok) =
      .ok ((pages.flatten.takeWhile (prKeep since)).map (prEntryOf detail)) := by
  induction pages with
  | nil => simp [get_prs_since]
  | cons page rest ih =>
    rcases eq_or_ne page [] with hpage | hpage
    · rcases eq_or_ne rest [] with hrest | hrest
      · subst hpage hrest
        simp [get_prs_since]
      · exfalso
        have : page ∈ (page :: rest).dropLast := by
          rw [List.dropLast_cons_of_ne_nil hrest]
          exact List.mem_cons_self _ _
        have := hfull page this
        simp [hpage, per_page] at this
    · have hfull' : ∀ p ∈ rest.dropLast, p.length = per_page := by
        intro p hp
        apply hfull
        have hrest : rest ≠ [] := by
          intro h
          subst h
          simp at hp
        rw [List.dropLast_cons_of_ne_nil hrest]
        exact List.mem_cons_of_mem _ hp
      simp only [List.map_cons, get_prs_since, List.isEmpty_iff, hpage, if_false,
        processPRPage_eq]
      by_cases hall : page.all (prKeep since) = true
      · by_cases hlen : page.length < per_page
        · have hrest : rest = [] := by
            by_contra hrest
            have : page ∈ (page :: rest).dropLast := by
              rw [List.dropLast_cons_of_ne_nil hrest]
              exact List.mem_cons_self _ _
            have := hfull page this
            omega
          subst hrest
          simp [hall, hlen, List.flatten_cons, takeWhile_append_of_all hall,
            takeWhile_eq_self_of_all hall]
        · simp only [hall, Bool.not_true, if_false, hlen, ih hfull']
          simp [List.flatten_cons, takeWhile_append_of_all hall, Except.map,
            takeWhile_eq_self_of_all hall]
      · have hall' : page.all (prKeep since) = false := by
          revert hall
          cases page.all (prKeep since) <;> simp
        simp [hall', List.flatten_cons, takeWhile_append_of_not_all hall']

/-! ## Lemmas about the commit loop -/

theorem processCommitPage_eq (since : Int)
    (detail : String → Except HttpError CommitDetails) (page : List CommitItem) :
    processCommitPage since detail page = page.filterMap (keepCommit since detail) := by
  induction page with
  | nil => rfl
  | cons c rest ih =>
    cases hdt : resolveCommitDate c with
    | none => simp [processCommitPage, hdt, List.filterMap_cons, keepCommit, ih]
    | some dt =>
      by_cases h : dt ≥ since
      · simp [processCommitPage, hdt, h, List.filterMap_cons, keepCommit, ih]
      · simp [processCommitPage, hdt, h, List.filterMap_cons, keepCommit, ih]

/-- The whole commit pagination, on a well-formed page sequence, keeps exactly
the items of the concatenated listing with a resolvable timestamp at or after
the cutoff — every item of every page is examined. -/
theorem get_commits_since_eq (since : Int)
    (detail : String → Except HttpError CommitDetails)
    (pages : List (List CommitItem))
    (hfull : ∀ p ∈ pages.dropLast, p.length = per_page) :
    get_commits_since since detail (pages.map .ok) =
      .ok (pages.flatten.filterMap (keepCommit since detail)) := by
  induction pages with
  | nil => simp [get_commits_since]
  | cons page rest ih =>
    rcases eq_or_ne page [] with hpage | hpage
    · rcases eq_or_ne rest [] with hrest | hrest
      · subst hpage hrest
        simp [get_commits_since]
      · exfalso
        have : page ∈ (page :: rest).dropLast := by
          rw [List.dropLast_cons_of_ne_nil hrest]
          exact List.mem_cons_self _ _
        have := hfull page this
        simp [hpage, per_page] at this
    · have hfull' : ∀ p ∈ rest.dropLast, p.length = per_page := by
        intro p hp
        apply hfull
        have hrest : rest ≠ [] := by
          intro h
          subst h
          simp at hp
        rw [List.dropLast_cons_of_ne_nil hrest]
        exact List.mem_cons_of_mem _ hp
      simp only [List.map_cons, get_commits_since, List.isEmpty_iff, hpage, if_false,
        processCommitPage_eq]
      by_cases hlen : page.length < per_page
      · have hrest : rest = [] := by
          by_contra hrest
          have : page ∈ (page :: rest).dropLast := by
            rw [List.dropLast_cons_of_ne_nil hrest]
            exact List.mem_cons_self _ _
          have := hfull page this
          omega
        subst hrest
        simp [hlen, List.flatten_cons]
      · simp [hlen, ih hfull', List.flatten_cons, List.filterMap_append, Except.map]

theorem prLoopF_terminates (since : Int) (detail : Nat → Except HttpError PRDetails)
    (fetch : Nat → List PRItem) :
    ∀ fuel page acc, (∃ k < fuel, (fetch (page + k)).length < per_page) →
      ∃ r, prLoopF since detail fetch fuel page acc = some r := by
  intro fuel
  induction fuel with
  | zero =>
    intro page acc h
    rcases h with ⟨k, hk, _⟩
    omega
  | succ n ih =>
    intro page acc h
    rcases h with ⟨k, hk, hshort⟩
    by_cases hemp : (fetch page).isEmpty
    · exact ⟨acc, by simp [prLoopF, hemp]⟩
    · by_cases hstop : (processPRPage since detail (fetch page)).2
      · exact ⟨acc ++ (processPRPage since detail (fetch page)).1,
          by simp [prLoopF, hemp, hstop]⟩
      · by_cases hlen : (fetch page).length < per_page
        · exact ⟨acc ++ (processPRPage since detail (fetch page)).1,
            by simp [prLoopF, hemp, hstop, hlen]⟩
        · have hk0 : k ≠ 0 := by
            intro h0
            subst h0
            simp at hshort
            omega
          have : ∃ j < n, (fetch (page + 1 + j)).length < per_page := by
            refine ⟨k - 1, by omega, ?_⟩
            have : page + 1 + (k - 1) = page + k := by omega
            rw [this]
            exact hshort
          rcases ih (page + 1) (acc ++ (processPRPage since detail (fetch page)).1)
            this with ⟨r, hr⟩
          exact ⟨r, by simp [prLoopF, hemp, hstop, hlen, hr]⟩

theorem commitLoopF_terminates (since : Int)
    (detail : String → Except HttpError CommitDetails)
    (fetch : Nat → List CommitItem) :
    ∀ fuel page acc, (∃ k < fuel, (fetch (page + k)).length < per_page) →
      ∃ r, commitLoopF since detail fetch fuel page acc = some r := by
  intro fuel
  induction fuel with
  | zero =>
    intro page acc h
    rcases h with ⟨k, hk, _⟩
    omega
  | succ n ih =>
    intro page acc h
    rcases h with ⟨k, hk, hshort⟩
    by_cases hemp : (fetch page).isEmpty
    · exact ⟨acc, by simp [commitLoopF, hemp]⟩
    · by_cases hlen : (fetch page).length < per_page
      · exact ⟨acc ++ processCommitPage since detail (fetch page),
          by simp [commitLoopF, hemp, hlen]⟩
      · have hk0 : k ≠ 0 := by
          intro h0
          subst h0
          simp at hshort
          omega
        have : ∃ j < n, (fetch (page + 1 + j)).length < per_page := by
          refine ⟨k - 1, by omega, ?_⟩
          have : page + 1 + (k - 1) = page + k := by omega
          rw [this]
          exact hshort
        rcases ih (page + 1) (acc ++ processCommitPage since detail (fetch page))
          this with ⟨r, hr⟩
        exact ⟨r, by simp [commitLoopF, hemp, hlen, hr]⟩

/-! ## The calendar round-trip -/

set_option maxRecDepth 4000 in
set_option maxHeartbeats 1000000 in
theorem monthDayOf_spec (leap : Bool) (r1 : Nat) (hr1 : r1 ≤ 364) :
    daysBeforeMonth (monthDayOf leap r1).1 +
      (if 2 < (monthDayOf leap r1).1 ∧ leap = true then 1 else 0) +
      ((monthDayOf leap r1).2 - 1) = r1 ∧
    1 ≤ (monthDayOf leap r1).1 ∧ (monthDayOf leap r1).1 ≤ 12 ∧
    1 ≤ (monthDayOf leap r1).2 ∧ (monthDayOf leap r1).2 ≤ 31 := by
  cases leap <;>
    · simp only [monthDayOf]
      norm_num
      generalize hgmo : (r1 + 50) / 32 = mo
      have hmo1 : 1 ≤ mo := by omega
      have hmo12 : mo ≤ 12 := by omega
      interval_cases mo <;>
        · norm_num [daysBeforeMonth, daysInMonth]
          first
          | (split_ifs <;> norm_num [daysBeforeMonth, daysInMonth] at * <;> omega)
          | omega

theorem isLeap_iff (n400 n100 n4 n1 : Nat) (h1 : n1 ≤ 3) (h100 : n100 ≤ 3)
    (h4 : n4 ≤ 24) :
    isLeapYear (n400 * 400 + n100 * 100 + n4 * 4 + n1 + 1) = true ↔
      (n1 = 3 ∧ (n4 ≠ 24 ∨ n100 = 3)) := by
  simp only [isLeapYear, decide_eq_true_eq]
  omega

theorem div4_eq (n400 n100 n4 n1 : Nat) (h1 : n1 ≤ 3) :
    (n400 * 400 + n100 * 100 + n4 * 4 + n1 + 1 - 1) / 4 =
      n400 * 100 + n100 * 25 + n4 := by
  omega

theorem div100_eq (n400 n100 n4 n1 : Nat) (h1 : n1 ≤ 3) (h4 : n4 ≤ 24) :
    (n400 * 400 + n100 * 100 + n4 * 4 + n1 + 1 - 1) / 100 = n400 * 4 + n100 := by
  omega

theorem div400_eq (n400 n100 n4 n1 : Nat) (h1 : n1 ≤ 3) (h4 : n4 ≤ 24)
    (h100 : n100 ≤ 3) :
    (n400 * 400 + n100 * 100 + n4 * 4 + n1 + 1 - 1) / 400 = n400 := by
  omega

set_option maxHeartbeats 4000000 in
theorem ord2ymd_spec (n : Nat) (hn : n < 3652059) :
    ymd2ord (ord2ymd n).1 (ord2ymd n).2.1 (ord2ymd n).2.2 = n ∧
    1 ≤ (ord2ymd n).1 ∧ (ord2ymd n).1 ≤ 9999 ∧
    1 ≤ (ord2ymd n).2.1 ∧ (ord2ymd n).2.1 ≤ 12 ∧
    1 ≤ (ord2ymd n).2.2 ∧ (ord2ymd n).2.2 ≤ 31 := by
  simp only [ord2ymd, ymd2ord]
  generalize hgr1 : n % 146097 = r400
  generalize hgq1 : n / 146097 = n400
  generalize hgq2 : r400 / 36524 = n100
  generalize hgr2 : r400 % 36524 = r100
  generalize hgq3 : r100 / 1461 = n4
  generalize hgr3 : r100 % 1461 = r4
  generalize hgq4 : r4 / 365 = n1
  generalize hgr4 : r4 % 365 = r1
  have hbr1 : r1 ≤ 364 := by omega
  by_cases hspecial : n1 = 4 ∨ n100 = 4
  · have hkey : (n1 = 4 ∧ n100 ≤ 3) ∨
        (n100 = 4 ∧ n1 = 0 ∧ n4 = 0 ∧ r4 = 0 ∧ r100 = 0) := by
      rcases hspecial with h | h
      · refine .inl ⟨h, ?_⟩
        by_contra hc
        have : n100 = 4 := by omega
        omega
      · by_cases h1 : n1 = 4
        · exact .inl ⟨h1, by omega⟩
        · refine .inr ⟨h, ?_, ?_, ?_, ?_⟩ <;> omega
    simp only [if_pos hspecial, daysBeforeMonth]
    rcases hkey with ⟨h1, h100⟩ | ⟨h100, h1, h4z, hr4z, hr100z⟩
    · have hb4 : n4 ≤ 24 := by omega
      have e4 : (n400 * 400 + n100 * 100 + n4 * 4 + n1 + 1 - 1 - 1) / 4 =
          n400 * 100 + n100 * 25 + n4 := by omega
      have e100 : (n400 * 400 + n100 * 100 + n4 * 4 + n1 + 1 - 1 - 1) / 100 =
          n400 * 4 + n100 := by omega
      have e400 : (n400 * 400 + n100 * 100 + n4 * 4 + n1 + 1 - 1 - 1) / 400 = n400 := by
        omega
      have hleap : isLeapYear (n400 * 400 + n100 * 100 + n4 * 4 + n1 + 1 - 1) = true := by
        simp only [isLeapYear, decide_eq_true_eq]
        omega
      have hcond : 2 < 12 ∧
          isLeapYear (n400 * 400 + n100 * 100 + n4 * 4 + n1 + 1 - 1) = true :=
        ⟨by norm_num, hleap⟩
      rw [if_pos hcond, e4, e100, e400]
      omega
    · have e4 : (n400 * 400 + n100 * 100 + n4 * 4 + n1 + 1 - 1 - 1) / 4 =
          n400 * 100 + 99 := by omega
      have e100 : (n400 * 400 + n100 * 100 + n4 * 4 + n1 + 1 - 1 - 1) / 100 =
          n400 * 4 + 3 := by omega
      have e400 : (n400 * 400 + n100 * 100 + n4 * 4 + n1 + 1 - 1 - 1) / 400 = n400 := by
        omega
      have hleap : isLeapYear (n400 * 400 + n100 * 100 + n4 * 4 + n1 + 1 - 1) = true := by
        simp only [isLeapYear, decide_eq_true_eq]
        omega
      have hcond : 2 < 12 ∧
          isLeapYear (n400 * 400 + n100 * 100 + n4 * 4 + n1 + 1 - 1) = true :=
        ⟨by norm_num, hleap⟩
      rw [if_pos hcond, e4, e100, e400]
      omega
  · simp only [if_neg hspecial]
    have hs1 : n1 ≤ 3 := by omega
    have hs100 : n100 ≤ 3 := by omega
    have hs4 : n4 ≤ 24 := by omega
    by_cases hP : n1 = 3 ∧ (n4 ≠ 24 ∨ n100 = 3)
    · rw [decide_eq_true hP]
      have hiso : isLeapYear (n400 * 400 + n100 * 100 + n4 * 4 + n1 + 1) = true :=
        (isLeap_iff n400 n100 n4 n1 hs1 hs100 hs4).mpr hP
      obtain ⟨hday, hM1, hM12, hD1, hD31⟩ := monthDayOf_spec true r1 hbr1
      simp only [hiso, eq_self_iff_true, and_true] at hday ⊢
      rw [div4_eq n400 n100 n4 n1 hs1, div100_eq n400 n100 n4 n1 hs1 hs4,
        div400_eq n400 n100 n4 n1 hs1 hs4 hs100]
      clear hiso
      revert hday hM1 hM12 hD1 hD31
      generalize daysBeforeMonth (monthDayOf true r1).1 = B
      generalize (monthDayOf true r1).1 = M
      generalize (monthDayOf true r1).2 = D
      by_cases h2M : 2 < M
      · simp only [if_pos h2M]
        intros
        omega
      · simp only [if_neg h2M]
        intros
        omega
    · rw [decide_eq_false hP]
      have hiso : isLeapYear (n400 * 400 + n100 * 100 + n4 * 4 + n1 + 1) = false := by
        rcases Bool.eq_false_or_eq_true
            (isLeapYear (n400 * 400 + n100 * 100 + n4 * 4 + n1 + 1)) with h | h
        · exact absurd ((isLeap_iff n400 n100 n4 n1 hs1 hs100 hs4).mp h) hP
        · exact h
      obtain ⟨hday, hM1, hM12, hD1, hD31⟩ := monthDayOf_spec false r1 hbr1
      simp only [hiso, Bool.false_eq_true, and_false, if_false] at hday ⊢
      rw [div4_eq n400 n100 n4 n1 hs1, div100_eq n400 n100 n4 n1 hs1 hs4,
        div400_eq n400 n100 n4 n1 hs1 hs4 hs100]
      clear hiso
      revert hday hM1 hM12 hD1 hD31
      generalize daysBeforeMonth (monthDayOf false r1).1 = B
      generalize (monthDayOf false r1).1 = M
      generalize (monthDayOf false r1).2 = D
      intros
      omega

theorem digitChar_isDigit (k : Nat) (h : k ≤ 9) : (digitChar k).isDigit = true := by
  interval_cases k <;> decide

theorem digitVal_digitChar (k : Nat) (h : k ≤ 9) : digitVal (digitChar k) = k := by
  interval_cases k <;> decide

set_option maxHeartbeats 1000000 in
theorem parse_format_fields (y mo d hh mi ss us : Nat)
    (hy : y ≤ 9999) (hmo : mo ≤ 99) (hd : d ≤ 99) (hh99 : hh ≤ 99)
    (hmi : mi ≤ 99) (hss : ss ≤ 99) (hus : us ≤ 999999) :
    parseIso (pad4 y ++ "-" ++ pad2 mo ++ "-" ++ pad2 d ++ "T" ++ pad2 hh ++ ":" ++
        pad2 mi ++ ":" ++ pad2 ss ++ (if us = 0 then "" else "." ++ pad6 us) ++
        "+00:00") =
      some ((microsOfFields y mo d hh mi ss us : Nat) : Int) := by
  have hv1 : digitVal (digitChar (y / 1000)) = y / 1000 := digitVal_digitChar _ (by omega)
  have hv2 : digitVal (digitChar (y / 100 % 10)) = y / 100 % 10 :=
    digitVal_digitChar _ (by omega)
  have hv3 : digitVal (digitChar (y / 10 % 10)) = y / 10 % 10 :=
    digitVal_digitChar _ (by omega)
  have hv4 : digitVal (digitChar (y % 10)) = y % 10 := digitVal_digitChar _ (by omega)
  have hv5 : digitVal (digitChar (mo / 10)) = mo / 10 := digitVal_digitChar _ (by omega)
  have hv6 : digitVal (digitChar (mo % 10)) = mo % 10 := digitVal_digitChar _ (by omega)
  have hv7 : digitVal (digitChar (d / 10)) = d / 10 := digitVal_digitChar _ (by omega)
  have hv8 : digitVal (digitChar (d % 10)) = d % 10 := digitVal_digitChar _ (by omega)
  have hv9 : digitVal (digitChar (hh / 10)) = hh / 10 := digitVal_digitChar _ (by omega)
  have hv10 : digitVal (digitChar (hh % 10)) = hh % 10 := digitVal_digitChar _ (by omega)
  have hv11 : digitVal (digitChar (mi / 10)) = mi / 10 := digitVal_digitChar _ (by omega)
  have hv12 : digitVal (digitChar (mi % 10)) = mi % 10 := digitVal_digitChar _ (by omega)
  have hv13 : digitVal (digitChar (ss / 10)) = ss / 10 := digitVal_digitChar _ (by omega)
  have hv14 : digitVal (digitChar (ss % 10)) = ss % 10 := digitVal_digitChar _ (by omega)
  by_cases hus0 : us = 0
  · subst hus0
    rw [if_pos rfl]
    have hdata : (pad4 y ++ "-" ++ pad2 mo ++ "-" ++ pad2 d ++ "T" ++ pad2 hh ++ ":" ++
        pad2 mi ++ ":" ++ pad2 ss ++ "" ++ "+00:00").data =
        [digitChar (y / 1000), digitChar (y / 100 % 10), digitChar (y / 10 % 10),
         digitChar (y % 10), '-', digitChar (mo / 10), digitChar (mo % 10), '-',
         digitChar (d / 10), digitChar (d % 10), 'T', digitChar (hh / 10),
         digitChar (hh % 10), ':', digitChar (mi / 10), digitChar (mi % 10), ':',
         digitChar (ss / 10), digitChar (ss % 10), '+', '0', '0', ':', '0', '0'] := rfl
    simp only [parseIso, hdata]
    rw [if_pos ?hc]
    case hc =>
      refine ⟨?_, ?_, ?_, ?_, ?_, ?_, ?_, ?_, ?_, ?_, ?_, ?_, ?_, ?_, ?_, ?_,
        ?_, ?_, ?_, ?_, ?_, ?_, ?_, ?_, ?_⟩ <;>
        first
        | trivial
        | exact digitChar_isDigit _ (by omega)
    have a1 : read2 (digitChar (y / 1000)) (digitChar (y / 100 % 10)) * 100 +
        read2 (digitChar (y / 10 % 10)) (digitChar (y % 10)) = y := by
      simp only [read2, hv1, hv2, hv3, hv4]
      omega
    have a2 : read2 (digitChar (mo / 10)) (digitChar (mo % 10)) = mo := by
      simp only [read2, hv5, hv6]
      omega
    have a3 : read2 (digitChar (d / 10)) (digitChar (d % 10)) = d := by
      simp only [read2, hv7, hv8]
      omega
    have a4 : read2 (digitChar (hh / 10)) (digitChar (hh % 10)) = hh := by
      simp only [read2, hv9, hv10]
      omega
    have a5 : read2 (digitChar (mi / 10)) (digitChar (mi % 10)) = mi := by
      simp only [read2, hv11, hv12]
      omega
    have a6 : read2 (digitChar (ss / 10)) (digitChar (ss % 10)) = ss := by
      simp only [read2, hv13, hv14]
      omega
    rw [a1, a2, a3, a4, a5, a6]
  · rw [if_neg hus0]
    have hv15 : digitVal (digitChar (us / 100000)) = us / 100000 :=
      digitVal_digitChar _ (by omega)
    have hv16 : digitVal (digitChar (us / 10000 % 10)) = us / 10000 % 10 :=
      digitVal_digitChar _ (by omega)
    have hv17 : digitVal (digitChar (us / 1000 % 10)) = us / 1000 % 10 :=
      digitVal_digitChar _ (by omega)
    have hv18 : digitVal (digitChar (us / 100 % 10)) = us / 100 % 10 :=
      digitVal_digitChar _ (by omega)
    have hv19 : digitVal (digitChar (us / 10 % 10)) = us / 10 % 10 :=
      digitVal_digitChar _ (by omega)
    have hv20 : digitVal (digitChar (us % 10)) = us % 10 :=
      digitVal_digitChar _ (by omega)
    have hdata : (pad4 y ++ "-" ++ pad2 mo ++ "-" ++ pad2 d ++ "T" ++ pad2 hh ++ ":" ++
        pad2 mi ++ ":" ++ pad2 ss ++ ("." ++ pad6 us) ++ "+00:00").data =
        [digitChar (y / 1000), digitChar (y / 100 % 10), digitChar (y / 10 % 10),
         digitChar (y % 10), '-', digitChar (mo / 10), digitChar (mo % 10), '-',
         digitChar (d / 10), digitChar (d % 10), 'T', digitChar (hh / 10),
         digitChar (hh % 10), ':', digitChar (mi / 10), digitChar (mi % 10), ':',
         digitChar (ss / 10), digitChar (ss % 10), '.', digitChar (us / 100000),
         digitChar (us / 10000 % 10), digitChar (us / 1000 % 10),
         digitChar (us / 100 % 10), digitChar (us / 10 % 10), digitChar (us % 10),
         '+', '0', '0', ':', '0', '0'] := rfl
    simp only [parseIso, hdata]
    rw [if_pos ?hc2]
    case hc2 =>
      refine ⟨?_, ?_, ?_, ?_, ?_, ?_, ?_, ?_, ?_, ?_, ?_, ?_, ?_, ?_, ?_, ?_,
        ?_, ?_, ?_, ?_, ?_, ?_, ?_, ?_, ?_, ?_, ?_, ?_, ?_, ?_, ?_, ?_⟩ <;>
        first
        | trivial
        | exact digitChar_isDigit _ (by omega)
    have a1 : read2 (digitChar (y / 1000)) (digitChar (y / 100 % 10)) * 100 +
        read2 (digitChar (y / 10 % 10)) (digitChar (y % 10)) = y := by
      simp only [read2, hv1, hv2, hv3, hv4]
      omega
    have a2 : read2 (digitChar (mo / 10)) (digitChar (mo % 10)) = mo := by
      simp only [read2, hv5, hv6]
      omega
    have a3 : read2 (digitChar (d / 10)) (digitChar (d % 10)) = d := by
      simp only [read2, hv7, hv8]
      omega
    have a4 : read2 (digitChar (hh / 10)) (digitChar (hh % 10)) = hh := by
      simp only [read2, hv9, hv10]
      omega
    have a5 : read2 (digitChar (mi / 10)) (digitChar (mi % 10)) = mi := by
      simp only [read2, hv11, hv12]
      omega
    have a6 : read2 (digitChar (ss / 10)) (digitChar (ss % 10)) = ss := by
      simp only [read2, hv13, hv14]
      omega
    have a7 : read2 (digitChar (us / 100000)) (digitChar (us / 10000 % 10)) * 10000 +
        read2 (digitChar (us / 1000 % 10)) (digitChar (us / 100 % 10)) * 100 +
        read2 (digitChar (us / 10 % 10)) (digitChar (us % 10)) = us := by
      simp only [read2, hv15, hv16, hv17, hv18, hv19, hv20]
      omega
    rw [a1, a2, a3, a4, a5, a6, a7]

set_option maxHeartbeats 1000000 in
theorem parseIso_isoOfMicros (t : Nat) (ht : t < maxMicros) :
    parseIso (isoOfMicros t) = some (t : Int) := by
  have hday : t / microsPerDay < 3652059 := by
    simp only [microsPerDay]
    simp only [maxMicros, microsPerDay] at ht
    omega
  obtain ⟨hrt, hy1, hy9999, hm1, hm12, hd1, hd31⟩ :=
    ord2ymd_spec (t / microsPerDay) hday
  simp only [isoOfMicros]
  rw [parse_format_fields _ _ _ _ _ _ _ hy9999 (by omega) (by omega)
    (by simp only [microsPerDay]; omega) (by simp only [microsPerDay]; omega)
    (by simp only [microsPerDay]; omega) (by simp only [microsPerDay]; omega)]
  have key : microsOfFields (ord2ymd (t / microsPerDay)).1
      (ord2ymd (t / microsPerDay)).2.1 (ord2ymd (t / microsPerDay)).2.2
      (t % microsPerDay / 3600000000) (t % microsPerDay % 3600000000 / 60000000)
      (t % microsPerDay % 60000000 / 1000000) (t % microsPerDay % 1000000) = t := by
    simp only [microsOfFields]
    rw [hrt]
    simp only [microsPerDay]
    omega
  rw [key]

/-! ## The collected output does not depend on the detail fetcher -/

theorem processPRPage_map_number (since : Int)
    (d d' : Nat → Except HttpError PRDetails) (page : List PRItem) :
    (processPRPage since d page).1.map PROut.number =
      (processPRPage since d' page).1.map PROut.number ∧
    (processPRPage since d page).2 = (processPRPage since d' page).2 := by
  induction page with
  | nil => exact ⟨rfl, rfl⟩
  | cons pr rest ih =>
    by_cases h : pr.updated_at ≥ since
    · refine ⟨?_, ?_⟩
      · simp only [processPRPage, if_pos h, List.map_cons, mkPREntry]
        rw [ih.1]
      · simp only [processPRPage, if_pos h]
        exact ih.2
    · simp [processPRPage, h]

theorem get_prs_since_map_number (since : Int)
    (d d' : Nat → Except HttpError PRDetails)
    (pages : List (Except HttpError (List PRItem))) :
    (get_prs_since since d pages).map (List.map PROut.number) =
      (get_prs_since since d' pages).map (List.map PROut.number) := by
  induction pages with
  | nil => rfl
  | cons p rest ih =>
    cases p with
    | error e => rfl
    | ok page =>
      obtain ⟨h1, h2⟩ := processPRPage_map_number since d d' page
      by_cases hemp : page.isEmpty
      · simp [get_prs_since, hemp]
      · simp only [get_prs_since, hemp, if_false]
        rw [← h2]
        by_cases hstop : (processPRPage since d page).2
        · simp [hstop, Except.map, h1]
        · by_cases hlen : page.length < per_page
          · simp [hstop, hlen, Except.map, h1]
          · simp only [hstop, hlen, if_false, Bool.false_eq_true]
            cases hx : get_prs_since since d rest with
            | error e =>
              have hy : get_prs_since since d' rest = .error e := by
                rw [hx] at ih
                cases hy : get_prs_since since d' rest with
                | error e2 =>
                  rw [hy] at ih
                  simp only [Except.map] at ih
                  cases ih
                  rfl
                | ok t =>
                  rw [hy] at ih
                  simp [Except.map] at ih
              rw [hy]
              simp [Except.map]
            | ok tail =>
              have hy : ∃ tail2, get_prs_since since d' rest = .ok tail2 ∧
                  tail.map PROut.number = tail2.map PROut.number := by
                rw [hx] at ih
                cases hy : get_prs_since since d' rest with
                | error e2 =>
                  rw [hy] at ih
                  simp [Except.map] at ih
                | ok t =>
                  rw [hy] at ih
                  simp only [Except.map, Except.ok.injEq] at ih
                  exact ⟨t, rfl, ih⟩
              obtain ⟨tail2, hy, htl⟩ := hy
              rw [hy]
              simp [Except.map, List.map_append, h1, htl]

theorem keepCommit_map_sha (since : Int)
    (dc dc' : String → Except HttpError CommitDetails) (c : CommitItem) :
    (keepCommit since dc c).map CommitOut.sha =
      (keepCommit since dc' c).map CommitOut.sha := by
  cases h : resolveCommitDate c with
  | none => simp [keepCommit, h]
  | some dt =>
    by_cases hge : dt ≥ since
    · simp [keepCommit, h, hge, mkCommitEntry]
    · simp [keepCommit, h, hge]

theorem processCommitPage_map_sha (since : Int)
    (dc dc' : String → Except HttpError CommitDetails) (page : List CommitItem) :
    (processCommitPage since dc page).map CommitOut.sha =
      (processCommitPage since dc' page).map CommitOut.sha := by
  rw [processCommitPage_eq, processCommitPage_eq]
  induction page with
  | nil => rfl
  | cons c rest ih =>
    simp only [List.filterMap_cons]
    have := keepCommit_map_sha since dc dc' c
    cases h : keepCommit since dc c with
    | none =>
      rw [h] at this
      cases h2 : keepCommit since dc' c with
      | none => exact ih
      | some v =>
        rw [h2] at this
        simp [Option.map] at this
    | some v =>
      rw [h] at this
      cases h2 : keepCommit since dc' c with
      | none =>
        rw [h2] at this
        simp [Option.map] at this
      | some v2 =>
        rw [h2] at this
        simp only [Option.map, Option.some.injEq] at this
        simp only [List.map_cons, this, ih]

theorem get_commits_since_map_sha (since : Int)
    (dc dc' : String → Except HttpError CommitDetails)
    (pages : List (Except HttpError (List CommitItem))) :
    (get_commits_since since dc pages).map (List.map CommitOut.sha) =
      (get_commits_since since dc' pages).map (List.map CommitOut.sha) := by
  induction pages with
  | nil => rfl
  | cons p rest ih =>
    cases p with
    | error e => rfl
    | ok page =>
      have h1 := processCommitPage_map_sha since dc dc' page
      by_cases hemp : page.isEmpty
      · simp [get_commits_since, hemp]
      · simp only [get_commits_since, hemp, if_false]
        by_cases hlen : page.length < per_page
        · simp [hlen, Except.map, h1]
        · simp only [hlen, if_false]
          cases hx : get_commits_since since dc rest with
          | error e =>
            have hy : get_commits_since since dc' rest = .error e := by
              rw [hx] at ih
              cases hy : get_commits_since since dc' rest with
              | error e2 =>
                rw [hy] at ih
                simp only [Except.map] at ih
                cases ih
                rfl
              | ok t =>
                rw [hy] at ih
                simp [Except.map] at ih
            rw [hy]
            simp [Except.map]
          | ok tail =>
            have hy : ∃ tail2, get_commits_since since dc' rest = .ok tail2 ∧
                tail.map CommitOut.sha = tail2.map CommitOut.sha := by
              rw [hx] at ih
              cases hy : get_commits_since since dc' rest with
              | error e2 =>
                rw [hy] at ih
                simp [Except.map] at ih
              | ok t =>
                rw [hy] at ih
                simp only [Except.map, Except.ok.injEq] at ih
                exact ⟨t, rfl, ih⟩
            obtain ⟨tail2, hy, htl⟩ := hy
            rw [hy]
            simp [Except.map, List.map_append, h1, htl]

/-- `splitOnceAux` finds no split exactly when the string has no slash. -/
theorem splitOnceAux_eq_none_iff (l : List Char) :
    splitOnceAux l = none ↔ '/' ∉ l := by
  induction l with
  | nil => simp [splitOnceAux]
  | cons c cs ih =>
    by_cases hc : c = '/'
    · subst hc
      simp [splitOnceAux]
    · simp only [splitOnceAux, if_neg hc, List.mem_cons]
      cases h : splitOnceAux cs with
      | none =>
        have hno : '/' ∉ cs := ih.mp h
        simp only [Option.map_none']
        constructor
        · intro _ hmem
          rcases hmem with hmem | hmem
          · exact hc hmem.symm
          · exact hno hmem
        · intro _
          trivial
      | some p =>
        have hmem : '/' ∈ cs := by
          by_contra hno
          rw [ih.mpr hno] at h
          cases h
        simp [hmem]

/-! ## The claims -/

/-- C1: on PR listing pages whose concatenation is strictly descending in
update time (with every page before the last full, as the paginated API
serves them), `get_prs_since` emits exactly the entries of the items with
update timestamp at or after `since`, in the API's order — equivalently the
longest such prefix — and a below-cutoff item ends the entire pagination at
once: whatever pages would follow are ignored. -/
theorem c1_pr_cutoff_traversal (since : Int)
    (detail : Nat → Except HttpError PRDetails) (pages : List (List PRItem))
    (hsort : pages.flatten.Pairwise (fun a b => b.updated_at < a.updated_at))
    (hfull : ∀ p ∈ pages.dropLast, p.length = per_page) :
    (get_prs_since since detail (pages.map .ok) =
      .ok ((pages.flatten.takeWhile (prKeep since)).map (prEntryOf detail)) ∧
    get_prs_since since detail (pages.map .ok) =
      .ok ((pages.flatten.filter (prKeep since)).map (prEntryOf detail))) ∧
    ∀ page rest, page ≠ [] → page.all (prKeep since) = false →
      get_prs_since since detail (.ok page :: rest) =
        .ok ((page.takeWhile (prKeep since)).map (prEntryOf detail)) := by
  refine ⟨⟨get_prs_since_eq since detail pages hfull, ?_⟩, ?_⟩
  · rw [get_prs_since_eq since detail pages hfull,
      takeWhile_eq_filter_of_sorted since _ hsort]
  · intro page rest hne hall
    have hemp : page.isEmpty = false := by
      cases page
      · exact absurd rfl hne
      · rfl
    simp [get_prs_since, hemp, processPRPage_eq, hall]

theorem c1_witness :
    get_prs_since 5 failPRDetail ([[prA, prB, prC]].map .ok) =
      .ok [prEntryOf failPRDetail prA, prEntryOf failPRDetail prB] := by
  have h := (c1_pr_cutoff_traversal 5 failPRDetail [[prA, prB, prC]]
    (by decide) (by simp)).1.1
  rw [h]
  rfl

/-- C2: on well-formed commit pages, `get_commits_since` emits exactly the
items whose resolved timestamp (author date, falling back to the committer
date) is at or after `since`; items with no resolvable date are skipped
silently. -/
theorem c2_commit_filter (since : Int)
    (detail : String → Except HttpError CommitDetails)
    (pages : List (List CommitItem))
    (hfull : ∀ p ∈ pages.dropLast, p.length = per_page) :
    get_commits_since since detail (pages.map .ok) =
      .ok (pages.flatten.filterMap (keepCommit since detail)) ∧
    (∀ c d0, (c.commit.author.getD ⟨none, none, none⟩).date = some d0 →
      resolveCommitDate c = some d0) ∧
    (∀ c, (c.commit.author.getD ⟨none, none, none⟩).date = none →
      resolveCommitDate c = (c.commit.committer.getD ⟨none, none, none⟩).date) ∧
    (∀ c, resolveCommitDate c = none → keepCommit since detail c = none) := by
  refine ⟨get_commits_since_eq since detail pages hfull, ?_, ?_, ?_⟩
  · intro c d0 h
    simp [resolveCommitDate, h]
  · intro c h
    simp [resolveCommitDate, h]
  · intro c h
    simp [keepCommit, h]

theorem c2_witness :
    get_commits_since 5 failCommitDetail ([[cA, cB, cC, cD]].map .ok) =
      .ok [mkCommitEntry cA 10 (failCommitDetail cA.url),
        mkCommitEntry cC 7 (failCommitDetail cC.url)] := by
  have h := (c2_commit_filter 5 failCommitDetail [[cA, cB, cC, cD]] (by simp)).1
  rw [h]
  rfl

/-- C3 as stated is false: when the stats fetch for a kept commit fails, the
entry's `files_changed` is `0` (`len({}.get("files") or [])`), not null; here
the claim fails at a concrete one-commit page with a failing detail fetch. -/
theorem c3_counterexample :
    get_commits_since 5 failCommitDetail [.ok [cA]] =
      .ok [mkCommitEntry cA 10 (.error ⟨500⟩)] ∧
    (mkCommitEntry cA 10 (.error ⟨500⟩)).additions = none ∧
    (mkCommitEntry cA 10 (.error ⟨500⟩)).deletions = none ∧
    (mkCommitEntry cA 10 (.error ⟨500⟩)).total_changes = none ∧
    (mkCommitEntry cA 10 (.error ⟨500⟩)).files_changed = some 0 ∧
    (mkCommitEntry cA 10 (.error ⟨500⟩)).files_changed ≠ none := by
  refine ⟨rfl, rfl, rfl, rfl, rfl, ?_⟩
  decide

/-- C3 amended: a failed per-item detail fetch never removes an item nor stops
the collection (the sequence of item keys is the same for every detail
fetcher); the failed PR entry has all four size metrics null, and the failed
commit entry has additions/deletions/total_changes null but `files_changed`
equal to `0`. -/
theorem c3_partial_failure_amended :
    (∀ since (d d' : Nat → Except HttpError PRDetails) pages,
      (get_prs_since since d pages).map (List.map PROut.number) =
        (get_prs_since since d' pages).map (List.map PROut.number)) ∧
    (∀ since (dc dc' : String → Except HttpError CommitDetails) pages,
      (get_commits_since since dc pages).map (List.map CommitOut.sha) =
        (get_commits_since since dc' pages).map (List.map CommitOut.sha)) ∧
    (∀ pr (e : HttpError),
      (mkPREntry pr (.error e)).additions = none ∧
      (mkPREntry pr (.error e)).deletions = none ∧
      (mkPREntry pr (.error e)).changed_files = none ∧
      (mkPREntry pr (.error e)).commits = none) ∧
    (∀ c dt (e : HttpError),
      (mkCommitEntry c dt (.error e)).additions = none ∧
      (mkCommitEntry c dt (.error e)).deletions = none ∧
      (mkCommitEntry c dt (.error e)).total_changes = none ∧
      (mkCommitEntry c dt (.error e)).files_changed = some 0) :=
  ⟨fun since d d' pages => get_prs_since_map_number since d d' pages,
   fun since dc dc' pages => get_commits_since_map_sha since dc dc' pages,
   fun _ _ => ⟨rfl, rfl, rfl, rfl⟩,
   fun _ _ _ => ⟨rfl, rfl, rfl, rfl⟩⟩

/-- C4: the run succeeds with exit code 0 exactly on the happy path; a falsy
`GITHUB_REPOSITORY` or `GITHUB_TOKEN`, a failed default-branch lookup, or a
failed top-level PR/commit collection each exit with code 1, write a
diagnostic to stderr, and emit no JSON on stdout. -/
theorem c4_exit_behavior (env : Env) :
    (truthyStr env.repository = false →
      Script.main env =
        .failure "Error: GITHUB_REPOSITORY environment variable not set" ∧
      exitCode (Script.main env) = 1 ∧ stdoutJson (Script.main env) = none ∧
      stderrDiagnostic (Script.main env) = true) ∧
    (truthyStr env.repository = true → truthyStr env.token = false →
      Script.main env =
        .failure "Error: GITHUB_TOKEN environment variable not set" ∧
      exitCode (Script.main env) = 1 ∧ stdoutJson (Script.main env) = none ∧
      stderrDiagnostic (Script.main env) = true) ∧
    (∀ p e, truthyStr env.repository = true → truthyStr env.token = true →
      splitOnce (env.repository.getD "") = some p →
      env.branchResult = .error e →
      Script.main env = .failure "Error getting default branch" ∧
      exitCode (Script.main env) = 1 ∧ stdoutJson (Script.main env) = none ∧
      stderrDiagnostic (Script.main env) = true) ∧
    (∀ p branch e, truthyStr env.repository = true → truthyStr env.token = true →
      splitOnce (env.repository.getD "") = some p →
      env.branchResult = .ok branch →
      get_prs_since (env.now - microsPerDayZ) env.prDetail env.prPages = .error e →
      Script.main env = .failure "Error fetching PRs" ∧
      exitCode (Script.main env) = 1 ∧ stdoutJson (Script.main env) = none ∧
      stderrDiagnostic (Script.main env) = true) ∧
    (∀ p branch prs e, truthyStr env.repository = true → truthyStr env.token = true →
      splitOnce (env.repository.getD "") = some p →
      env.branchResult = .ok branch →
      get_prs_since (env.now - microsPerDayZ) env.prDetail env.prPages = .ok prs →
      get_commits_since (env.now - microsPerDayZ) env.commitDetail env.commitPages =
        .error e →
      Script.main env = .failure "Error fetching commits" ∧
      exitCode (Script.main env) = 1 ∧ stdoutJson (Script.main env) = none ∧
      stderrDiagnostic (Script.main env) = true) ∧
    (∀ p branch prs commits, truthyStr env.repository = true →
      truthyStr env.token = true →
      splitOnce (env.repository.getD "") = some p →
      env.branchResult = .ok branch →
      get_prs_since (env.now - microsPerDayZ) env.prDetail env.prPages = .ok prs →
      get_commits_since (env.now - microsPerDayZ) env.commitDetail env.commitPages =
        .ok commits →
      Script.main env = .success
        { repo := env.repository.getD "",
          since := isoformatUTC (env.now - microsPerDayZ), prs := prs,
          commits := commits } ∧
      exitCode (Script.main env) = 0 ∧
      stdoutJson (Script.main env) = some
        { repo := env.repository.getD "",
          since := isoformatUTC (env.now - microsPerDayZ), prs := prs,
          commits := commits }) := by
  refine ⟨?_, ?_, ?_, ?_, ?_, ?_⟩
  · intro h
    have hm : Script.main env =
        .failure "Error: GITHUB_REPOSITORY environment variable not set" := by
      simp [Script.main, h]
    exact ⟨hm, by rw [hm]; rfl, by rw [hm]; rfl, by rw [hm]; rfl⟩
  · intro h1 h2
    have hm : Script.main env =
        .failure "Error: GITHUB_TOKEN environment variable not set" := by
      simp [Script.main, h1, h2]
    exact ⟨hm, by rw [hm]; rfl, by rw [hm]; rfl, by rw [hm]; rfl⟩
  · intro p e h1 h2 hsplit hbr
    have hm : Script.main env = .failure "Error getting default branch" := by
      simp [Script.main, h1, h2, hsplit, hbr]
    exact ⟨hm, by rw [hm]; rfl, by rw [hm]; rfl, by rw [hm]; rfl⟩
  · intro p branch e h1 h2 hsplit hbr hpr
    have hm : Script.main env = .failure "Error fetching PRs" := by
      simp [Script.main, h1, h2, hsplit, hbr, hpr]
    exact ⟨hm, by rw [hm]; rfl, by rw [hm]; rfl, by rw [hm]; rfl⟩
  · intro p branch prs e h1 h2 hsplit hbr hpr hco
    have hm : Script.main env = .failure "Error fetching commits" := by
      simp [Script.main, h1, h2, hsplit, hbr, hpr, hco]
    exact ⟨hm, by rw [hm]; rfl, by rw [hm]; rfl, by rw [hm]; rfl⟩
  · intro p branch prs commits h1 h2 hsplit hbr hpr hco
    have hm : Script.main env = .success
        { repo := env.repository.getD "",
          since := isoformatUTC (env.now - microsPerDayZ), prs := prs,
          commits := commits } := by
      simp [Script.main, h1, h2, hsplit, hbr, hpr, hco]
    exact ⟨hm, by rw [hm]; rfl, by rw [hm]; rfl⟩

theorem c4_witness :
    exitCode (Script.main { envOK with repository := none }) = 1 ∧
    stdoutJson (Script.main { envOK with repository := none }) = none ∧
    exitCode (Script.main { envOK with token := some "" }) = 1 ∧
    exitCode (Script.main { envOK with branchResult := .error ⟨500⟩ }) = 1 ∧
    exitCode (Script.main { envOK with prPages := [.error ⟨403⟩] }) = 1 ∧
    exitCode (Script.main { envOK with commitPages := [.error ⟨403⟩] }) = 1 ∧
    exitCode (Script.main envOK) = 0 := by
  refine ⟨((c4_exit_behavior { envOK with repository := none }).1 rfl).2.1,
    ((c4_exit_behavior { envOK with repository := none }).1 rfl).2.2.1,
    ((c4_exit_behavior { envOK with token := some "" }).2.1 rfl rfl).2.1,
    ((c4_exit_behavior { envOK with branchResult := .error ⟨500⟩ }).2.2.1
      ("octo", "repo") ⟨500⟩ rfl rfl rfl rfl).2.1,
    ((c4_exit_behavior { envOK with prPages := [.error ⟨403⟩] }).2.2.2.1
      ("octo", "repo") "main" ⟨403⟩ rfl rfl rfl rfl rfl).2.1,
    ((c4_exit_behavior { envOK with commitPages := [.error ⟨403⟩] }).2.2.2.2.1
      ("octo", "repo") "main" [] ⟨403⟩ rfl rfl rfl rfl rfl rfl).2.1,
    ((c4_exit_behavior envOK).2.2.2.2.2 ("octo", "repo") "main" [] [] rfl rfl rfl
      rfl rfl rfl).2.1⟩

/-- C5: both loops request 50 items per page; with fuel equal to the index of
the first short page each loop returns (it stops after processing that page),
and the commit page scan — unlike the PR one — is an append homomorphism:
every item of every fetched page is examined. -/
theorem c5_pagination_termination :
    per_page = 50 ∧
    (∀ since detail fetch N, 1 ≤ N → (fetch N).length < per_page →
      ∃ r, prLoopF since detail fetch N 1 [] = some r) ∧
    (∀ since detail fetch N, 1 ≤ N → (fetch N).length < per_page →
      ∃ r, commitLoopF since detail fetch N 1 [] = some r) ∧
    (∀ since detail xs ys, processCommitPage since detail (xs ++ ys) =
      processCommitPage since detail xs ++ processCommitPage since detail ys) := by
  refine ⟨rfl, ?_, ?_, ?_⟩
  · intro since detail fetch N hN hshort
    refine prLoopF_terminates since detail fetch N 1 [] ⟨N - 1, by omega, ?_⟩
    have h : 1 + (N - 1) = N := by omega
    rw [h]
    exact hshort
  · intro since detail fetch N hN hshort
    refine commitLoopF_terminates since detail fetch N 1 [] ⟨N - 1, by omega, ?_⟩
    have h : 1 + (N - 1) = N := by omega
    rw [h]
    exact hshort
  · intro since detail xs ys
    simp [processCommitPage_eq, List.filterMap_append]

theorem c5_witness :
    (∃ r, prLoopF 0 failPRDetail (fun _ => []) 1 1 [] = some r) ∧
    (∃ r, commitLoopF 0 failCommitDetail (fun _ => []) 1 1 [] = some r) ∧
    processCommitPage 0 failCommitDetail ([cA] ++ [cD]) =
      processCommitPage 0 failCommitDetail [cA] ++
        processCommitPage 0 failCommitDetail [cD] :=
  ⟨c5_pagination_termination.2.1 0 failPRDetail (fun _ => []) 1 (by decide)
      (by decide),
    c5_pagination_termination.2.2.1 0 failCommitDetail (fun _ => []) 1 (by decide)
      (by decide),
    c5_pagination_termination.2.2.2 0 failCommitDetail [cA] [cD]⟩

/-- C6 as stated is false: `raise_for_status` only raises for 4xx/5xx, so the
non-2xx status 304 is returned as a success by `github_get` rather than
raising. -/
theorem c6_counterexample :
    ¬(200 ≤ 304 ∧ 304 < 300) ∧
    github_get (⟨304, 0⟩ : HttpResponse Nat) = .ok 0 := by
  constructor
  · decide
  · rfl

/-- C6 amended: `github_get` raises exactly for the statuses
`400 ≤ status < 600`; any other status — 2xx but also 1xx, 3xx and ≥ 600 —
returns the decoded body. -/
theorem c6_raise_for_status_amended {α : Type} (r : HttpResponse α) :
    (∃ e, github_get r = .error e) ↔ (400 ≤ r.status ∧ r.status < 600) := by
  unfold github_get
  split_ifs with h
  · exact ⟨fun _ => h, fun _ => ⟨⟨r.status⟩, rfl⟩⟩
  · constructor
    · rintro ⟨e, he⟩
      cases he
    · intro hc
      exact absurd hc h

/-- C7: whenever a run succeeds, the `since` field of its output, parsed back
with the ISO-8601 parser, is exactly the captured `now` minus 24 hours (for
any `now` within the representable datetime range). -/
theorem c7_since_roundtrip (env : Env) (out : ActivityReport)
    (hrun : Script.main env = .success out)
    (hlo : 0 ≤ env.now - microsPerDayZ)
    (hhi : env.now - microsPerDayZ < (maxMicros : Int)) :
    parseIso out.since = some (env.now - microsPerDayZ) := by
  have hsince : out.since = isoformatUTC (env.now - microsPerDayZ) := by
    by_cases hb1 : truthyStr env.repository = false
    · simp [Script.main, hb1] at hrun
    · by_cases hb2 : truthyStr env.token = false
      · simp [Script.main, hb1, hb2] at hrun
      · cases hsp : splitOnce (env.repository.getD "") with
        | none => simp [Script.main, hb1, hb2, hsp] at hrun
        | some p =>
          cases hbr : env.branchResult with
          | error e => simp [Script.main, hb1, hb2, hsp, hbr] at hrun
          | ok b =>
            cases hpr : get_prs_since (env.now - microsPerDayZ) env.prDetail
                env.prPages with
            | error e => simp [Script.main, hb1, hb2, hsp, hbr, hpr] at hrun
            | ok prs =>
              cases hco : get_commits_since (env.now - microsPerDayZ)
                  env.commitDetail env.commitPages with
              | error e => simp [Script.main, hb1, hb2, hsp, hbr, hpr, hco] at hrun
              | ok commits =>
                simp [Script.main, hb1, hb2, hsp, hbr, hpr, hco] at hrun
                subst hrun
                rfl
  have h1 : (env.now - microsPerDayZ).toNat < maxMicros := by
    simp only [maxMicros, microsPerDay] at hhi ⊢
    omega
  rw [hsince]
  unfold isoformatUTC
  rw [parseIso_isoOfMicros _ h1, Int.toNat_of_nonneg hlo]

theorem c7_witness :
    parseIso (isoformatUTC (envOK.now - microsPerDayZ)) =
      some (envOK.now - microsPerDayZ) :=
  c7_since_roundtrip envOK
    { repo := "octo/repo", since := isoformatUTC (envOK.now - microsPerDayZ),
      prs := [], commits := [] } rfl (by decide) (by decide)

/-- C8: when no PR and no commit matches (for instance because the first page
of each listing is empty), the run still succeeds: exit code 0 and a report
whose `prs` and `commits` are empty arrays and whose `since` is the timestamp
24 hours before the captured `now`. -/
theorem c8_empty_activity (env : Env)
    (h1 : truthyStr env.repository = true) (h2 : truthyStr env.token = true)
    (p : String × String) (hsplit : splitOnce (env.repository.getD "") = some p)
    (branch : String) (hbr : env.branchResult = .ok branch)
    (hpr : get_prs_since (env.now - microsPerDayZ) env.prDetail env.prPages = .ok [])
    (hco : get_commits_since (env.now - microsPerDayZ) env.commitDetail
      env.commitPages = .ok []) :
    Script.main env = .success
      { repo := env.repository.getD "",
        since := isoformatUTC (env.now - microsPerDayZ), prs := [],
        commits := [] } ∧
    exitCode (Script.main env) = 0 ∧
    stdoutJson (Script.main env) = some
      { repo := env.repository.getD "",
        since := isoformatUTC (env.now - microsPerDayZ), prs := [],
        commits := [] } := by
  have hm := ((c4_exit_behavior env).2.2.2.2.2 p branch [] [] h1 h2 hsplit hbr
    hpr hco)
  exact hm

theorem c8_witness :
    Script.main envOK = .success
      { repo := "octo/repo", since := isoformatUTC (envOK.now - microsPerDayZ),
        prs := [], commits := [] } ∧
    exitCode (Script.main envOK) = 0 :=
  ⟨(c8_empty_activity envOK rfl rfl ("octo", "repo") rfl "main" rfl rfl rfl).1,
    (c8_empty_activity envOK rfl rfl ("octo", "repo") rfl "main" rfl rfl rfl).2.1⟩

/-- C9: with both env variables set but a repository string containing no
slash, the unpacking of `repository.split("/", 1)` raises an uncaught
`ValueError`: exit code 1, a traceback (not the configuration-error message)
on stderr, no JSON on stdout — and the result is the same whatever the
clock or the API would have answered, i.e. the abort happens before any
network call. -/
theorem c9_unpack_value_error (env : Env)
    (h1 : truthyStr env.repository = true) (h2 : truthyStr env.token = true)
    (hns : '/' ∉ (env.repository.getD "").data) :
    Script.main env = .exception "ValueError: not enough values to unpack" ∧
    exitCode (Script.main env) = 1 ∧
    stdoutJson (Script.main env) = none ∧
    stderrDiagnostic (Script.main env) = true ∧
    ∀ env2 : Env, env2.repository = env.repository → env2.token = env.token →
      Script.main env2 = Script.main env := by
  have hsplit : splitOnce (env.repository.getD "") = none := by
    unfold splitOnce
    rw [(splitOnceAux_eq_none_iff _).mpr hns]
    rfl
  have hm : Script.main env = .exception "ValueError: not enough values to unpack" := by
    simp [Script.main, h1, h2, hsplit]
  refine ⟨hm, by rw [hm]; rfl, by rw [hm]; rfl, by rw [hm]; rfl, ?_⟩
  intro env2 hrep htok
  have hm2 : Script.main env2 =
      .exception "ValueError: not enough values to unpack" := by
    simp [Script.main, hrep, htok, h1, h2, hsplit]
  rw [hm, hm2]

theorem c9_witness :
    Script.main { envOK with repository := some "oneword" } =
      .exception "ValueError: not enough values to unpack" ∧
    exitCode (Script.main { envOK with repository := some "oneword" }) = 1 := by
  have h := c9_unpack_value_error { envOK with repository := some "oneword" }
    rfl rfl (by decide)
  exact ⟨h.1, h.2.1⟩

/-- C10: the `merged` flag of every emitted PR entry is computed from the
listing item's `merged_at` and is always a Boolean, while the emitted
`merged_at` comes from the detail fetch (and is null when that fetch fails);
for the merged listing item `prA` with a failing detail fetch the entry has
`merged = true` together with `merged_at = null`. -/
theorem c10_merged_flag :
    (∀ pr (dres : Except HttpError PRDetails),
      (mkPREntry pr dres).merged = pr.merged_at.isSome) ∧
    (∀ pr (d : PRDetails), (mkPREntry pr (.ok d)).merged_at = d.merged_at) ∧
    (∀ pr (e : HttpError), (mkPREntry pr (.error e)).merged_at = none) ∧
    (mkPREntry prA (.error ⟨500⟩)).merged = true ∧
    (mkPREntry prA (.error ⟨500⟩)).merged_at = none :=
  ⟨fun _ _ => rfl, fun _ _ => rfl, fun _ _ => rfl, rfl, rfl⟩
